import Mathlib

/-!
Shallow embedding of the KubeTodo/todo-api repository.

Two variants of the service are embedded:
* the in-memory slice variant (`src/unnamed/part_000`): a global `todos`
  slice, handlers `postTodo`, `putTodo`, `deleteTodo`, helper `toInt`;
* the SQL-backed variant (`src/main.go`): `Database` methods
  `GetTodoByID`, `CreateTodo`, `UpdateTodo`, `DeleteTodo` over a sqlite
  table with AUTOINCREMENT ids, and the router's PUT/POST/DELETE handlers.

HTTP handlers are modelled as pure functions from the request pieces the
Go handler reads (path id token, decoded JSON body) and the current store
to the produced status code, response body and new store.  A JSON body is
`Option TodoPayload`: `none` is a body `ShouldBindJSON` rejects, `some p`
carries which fields were present (absent fields bind to Go zero values).
Backend (sqlite / driver) failures are environmental and outside the pure
model: the embedded operations are the non-failing executions.
-/

/-- A to-do item, `Todo` in both Go variants: `ID int`, `Title string`,
`Done bool`. Go `int` is embedded as `Int`. -/
structure Todo where
  id : Int
  title : String
  done : Bool
deriving Repr, DecidableEq

/-- A decoded JSON object for a `Todo`, field by field: `none` means the
key was absent from the JSON document. -/
structure TodoPayload where
  id : Option Int
  title : Option String
  done : Option Bool
deriving Repr, DecidableEq

/-- Go's `encoding/json` unmarshalling of a payload into a fresh `Todo`:
absent keys leave the zero value (`0`, `""`, `false`). -/
def bindTodo (p : TodoPayload) : Todo :=
  { id := p.id.getD 0, title := p.title.getD "", done := p.done.getD false }

/-- `strconv.Atoi`: optional sign followed by at least one digit; any
other shape is an error (`none`).  Overflow of Go `int` is not modelled. -/
def atoi? (s : String) : Option Int :=
  let digits : List Char → Option Nat := fun cs =>
    if cs = [] then none
    else cs.foldlM (fun acc c => if c.isDigit then some (acc * 10 + (c.toNat - 48)) else none) 0
  match s.data with
  | '+' :: rest => (digits rest).map Int.ofNat
  | '-' :: rest => (digits rest).map (fun n => -(n : Int))
  | cs => (digits cs).map Int.ofNat

/-- `toInt` from `src/unnamed/part_000`: `strconv.Atoi`, returning `0` on
any parse error. -/
def toInt (s : String) : Int := (atoi? s).getD 0

/-- The seeded in-memory collection (`var todos = []Todo{...}`). -/
def seedTodos : List Todo :=
  [{ id := 1, title := "Learn Go", done := false },
   { id := 2, title := "Set up CI/CD", done := false }]

/-- `postTodo` (in-memory variant): bind the body (400 on malformed JSON),
overwrite the id with `len(todos) + 1`, append, answer 201 with the item. -/
def postTodo (body : Option TodoPayload) (todos : List Todo) :
    Nat × Option Todo × List Todo :=
  match body with
  | none => (400, none, todos)
  | some p =>
      let newTodo := bindTodo p
      let newTodo := { newTodo with id := (todos.length : Int) + 1 }
      (201, some newTodo, todos ++ [newTodo])

/-- The loop of `putTodo`: walk the slice; at the first element whose id
matches, overwrite its `Title` and `Done` in place and stop, returning the
updated slice together with the updated element; `none` when no element
matches. -/
def putCore (k : Int) (u : Todo) : List Todo → Option (List Todo × Todo)
  | [] => none
  | t :: rest =>
      if t.id = k then
        let t' := { t with title := u.title, done := u.done }
        some (t' :: rest, t')
      else
        (putCore k u rest).map (fun r => (t :: r.1, r.2))

/-- `putTodo` (in-memory variant): bind the body (400 on malformed JSON),
then scan for `toInt id`; 200 with the updated item on a match, else 404. -/
def putTodo (idStr : String) (body : Option TodoPayload) (todos : List Todo) :
    Nat × Option Todo × List Todo :=
  match body with
  | none => (400, none, todos)
  | some p =>
      let u := bindTodo p
      match putCore (toInt idStr) u todos with
      | some r => (200, some r.2, r.1)
      | none => (404, none, todos)

/-- The loop of `deleteTodo`: remove the first element whose id matches
(`append(todos[:i], todos[i+1:]...)`); `none` when no element matches. -/
def deleteCore (k : Int) : List Todo → Option (List Todo)
  | [] => none
  | t :: rest =>
      if t.id = k then some rest
      else (deleteCore k rest).map (fun r => t :: r)

/-- `deleteTodo` (in-memory variant): scan for `toInt id`; 200 after
removing the match, else 404 with the slice untouched. -/
def deleteTodo (idStr : String) (todos : List Todo) : Nat × List Todo :=
  match deleteCore (toInt idStr) todos with
  | some l => (200, l)
  | none => (404, todos)

/-- The sqlite store of the SQL-backed variant (`src/main.go`): the rows
of the `todos` table in primary-key insertion order, plus the
AUTOINCREMENT counter (`nextId` exceeds every id ever assigned). -/
structure Db where
  rows : List Todo
  nextId : Int
deriving Repr, DecidableEq

namespace Database

/-- `Database.GetTodoByID`: `SELECT ... WHERE id = ?` with `QueryRow`;
`sql.ErrNoRows` is mapped to an explicit absence (`none`). -/
def GetTodoByID (id : Int) (db : Db) : Option Todo :=
  db.rows.find? (fun r => r.id = id)

/-- `Database.CreateTodo`: `INSERT INTO todos (title, done)` — the id
column is never written by the caller; AUTOINCREMENT assigns the next id,
which `LastInsertId` writes back into the item. -/
def CreateTodo (t : Todo) (db : Db) : Db × Todo :=
  let t' := { t with id := db.nextId }
  ({ rows := db.rows ++ [t'], nextId := db.nextId + 1 }, t')

/-- `Database.UpdateTodo`: `UPDATE todos SET title = ?, done = ? WHERE
id = ?` (rows that match get the new title/done, ids untouched, nothing
inserted), then the input values are returned verbatim with
`updatedTodo.ID = id`. -/
def UpdateTodo (id : Int) (updatedTodo : Todo) (db : Db) : Db × Todo :=
  ({ db with
      rows := db.rows.map (fun r =>
        if r.id = id then { r with title := updatedTodo.title, done := updatedTodo.done }
        else r) },
   { updatedTodo with id := id })

/-- `Database.DeleteTodo`: `DELETE FROM todos WHERE id = ?`; deleting a
missing id matches no row and is not an error. -/
def DeleteTodo (id : Int) (db : Db) : Db :=
  { db with rows := db.rows.filter (fun r => r.id ≠ id) }

end Database

/-- One observable call made by a router handler against the `Database`. -/
inductive DbCall where
  | lookup (id : Int)
  | update (id : Int)
  | remove (id : Int)
deriving Repr, DecidableEq

/-- The `POST /todos` handler of `src/main.go`: bind the body (400 on
malformed JSON), `CreateTodo`, answer 201 with the item carrying the
backend-assigned id. -/
def postHandler (body : Option TodoPayload) (db : Db) : Nat × Db × Option Todo :=
  match body with
  | none => (400, db, none)
  | some p =>
      let r := Database.CreateTodo (bindTodo p) db
      (201, r.1, some r.2)

/-- The `PUT /todos/:id` handler of `src/main.go`, with the trace of
`Database` calls it performs: `strconv.Atoi` (400 on error), bind the
body (400 on error), `GetTodoByID` (404 when absent), set
`updatedTodo.ID = id`, `UpdateTodo`, answer 200. -/
def putHandler (idTok : String) (body : Option TodoPayload) (db : Db) :
    Nat × Db × List DbCall :=
  match atoi? idTok with
  | none => (400, db, [])
  | some id =>
      match body with
      | none => (400, db, [])
      | some p =>
          match Database.GetTodoByID id db with
          | none => (404, db, [DbCall.lookup id])
          | some _ =>
              let u := { bindTodo p with id := id }
              (200, (Database.UpdateTodo id u db).1, [DbCall.lookup id, DbCall.update id])

/-- The `DELETE /todos/:id` handler of `src/main.go`, with its trace of
`Database` calls: `strconv.Atoi` (400 on error), `GetTodoByID` (404 when
absent), `DeleteTodo`, answer 200. -/
def deleteHandler (idTok : String) (db : Db) : Nat × Db × List DbCall :=
  match atoi? idTok with
  | none => (400, db, [])
  | some id =>
      match Database.GetTodoByID id db with
      | none => (404, db, [DbCall.lookup id])
      | some _ => (200, Database.DeleteTodo id db, [DbCall.lookup id, DbCall.remove id])

/-- A request to the in-memory variant that can add or change items:
create (`POST /todos`) or update (`PUT /todos/:id`). -/
inductive MemReq where
  | post (body : TodoPayload)
  | put (idStr : String) (body : TodoPayload)
deriving Repr, DecidableEq

/-- The collection state after serving one `MemReq`. -/
def applyMemReq (l : List Todo) : MemReq → List Todo
  | MemReq.post body => (postTodo (some body) l).2.2
  | MemReq.put idStr body => (putTodo idStr (some body) l).2.2

/-- The collection state after serving a sequence of `MemReq`s from the
seeded state. -/
def runMemReqs (reqs : List MemReq) : List Todo :=
  reqs.foldl applyMemReq seedTodos

/-- The store of the spec's scenario (§8): the seeded rows persisted, with
the AUTOINCREMENT counter at 3. -/
def seedDb : Db := { rows := seedTodos, nextId := 3 }

/-- The ids `1, …, n`, the shape the in-memory collection's id column has
after any sequence of creates and updates from the seed. -/
def natIdsUpTo (n : Nat) : List Int := (List.range' 1 n).map Int.ofNat

theorem map_fixed_of_forall_eq {α : Type} (f : α → α) :
    ∀ l : List α, (∀ a ∈ l, f a = a) → l.map f = l
  | [], _ => rfl
  | a :: t, h => by
      simp only [List.map_cons, h a (List.mem_cons_self a t),
        map_fixed_of_forall_eq f t (fun x hx => h x (List.mem_cons_of_mem a hx))]

theorem putCore_eq_none {k : Int} {u : Todo} :
    ∀ {l : List Todo}, (∀ t ∈ l, t.id ≠ k) → putCore k u l = none
  | [], _ => rfl
  | t :: rest, h => by
      have ht : t.id ≠ k := h t (List.mem_cons_self t rest)
      simp only [putCore, if_neg ht,
        putCore_eq_none (fun x hx => h x (List.mem_cons_of_mem t hx)), Option.map_none']

theorem putCore_append {k : Int} {u : Todo} {t : Todo} (post : List Todo)
    (ht : t.id = k) :
    ∀ pre : List Todo, (∀ x ∈ pre, x.id ≠ k) →
      putCore k u (pre ++ t :: post) =
        some (pre ++ { t with title := u.title, done := u.done } :: post,
          { t with title := u.title, done := u.done })
  | [], _ => by simp [putCore, ht]
  | x :: pre, h => by
      have hx : x.id ≠ k := h x (List.mem_cons_self x pre)
      have hrec := putCore_append (k := k) (u := u) post ht pre
        (fun y hy => h y (List.mem_cons_of_mem x hy))
      simp [putCore, if_neg hx, hrec]

theorem putCore_map_id {k : Int} {u : Todo} :
    ∀ {l l' : List Todo} {t' : Todo}, putCore k u l = some (l', t') →
      l'.map Todo.id = l.map Todo.id := by
  intro l
  induction l with
  | nil => intro l' t' h; exact absurd h (by simp [putCore])
  | cons t rest ih =>
      intro l' t' h
      by_cases htk : t.id = k
      · simp only [putCore, if_pos htk, Option.some.injEq, Prod.mk.injEq] at h
        rw [← h.1]
        rfl
      · simp only [putCore, if_neg htk] at h
        cases hr : putCore k u rest with
        | none => rw [hr] at h; exact absurd h (by simp)
        | some r =>
            rw [hr] at h
            simp only [Option.map_some', Option.some.injEq, Prod.mk.injEq] at h
            rw [← h.1, List.map_cons, List.map_cons, ih hr]

theorem deleteCore_eq_none {k : Int} :
    ∀ {l : List Todo}, (∀ t ∈ l, t.id ≠ k) → deleteCore k l = none
  | [], _ => rfl
  | t :: rest, h => by
      have ht : t.id ≠ k := h t (List.mem_cons_self t rest)
      simp only [deleteCore, if_neg ht,
        deleteCore_eq_none (fun x hx => h x (List.mem_cons_of_mem t hx)), Option.map_none']

theorem deleteTodo_snd_eq_eraseP (idStr : String) :
    ∀ l : List Todo, (deleteTodo idStr l).2 = l.eraseP (fun t => t.id == toInt idStr)
  | [] => rfl
  | t :: rest => by
      have hrec := deleteTodo_snd_eq_eraseP idStr rest
      simp only [deleteTodo] at hrec
      by_cases ht : t.id = toInt idStr
      · have ht' : (t.id == toInt idStr) = true := by simp [ht]
        simp [deleteTodo, deleteCore, if_pos ht, List.eraseP_cons, ht']
      · have ht' : (t.id == toInt idStr) = false := by simp [ht]
        cases hr : deleteCore (toInt idStr) rest with
        | none =>
            rw [hr] at hrec
            simp only at hrec
            simp [deleteTodo, deleteCore, if_neg ht, hr, List.eraseP_cons, ht', ← hrec]
        | some r =>
            rw [hr] at hrec
            simp only at hrec
            simp [deleteTodo, deleteCore, if_neg ht, hr, List.eraseP_cons, ht', hrec]

theorem natIdsUpTo_succ (n : Nat) : natIdsUpTo (n + 1) = natIdsUpTo n ++ [(n : Int) + 1] := by
  simp [natIdsUpTo, List.range'_concat]
  omega

theorem natIdsUpTo_nodup (n : Nat) : (natIdsUpTo n).Nodup := by
  exact List.Nodup.map (fun a b h => Int.ofNat.inj h) (List.nodup_range' 1 n)

/-- C6: create stores and returns the item under the server-assigned id
(`len(todos) + 1` in memory, the AUTOINCREMENT value in SQL); the caller's
`id` field never reaches the result, and an absent `done` binds to
`false`. -/
theorem createAssignsServerIdAndDefaults (body : TodoPayload) (l : List Todo) (db : Db) :
    postTodo (some body) l =
      (201,
       some { id := (l.length : Int) + 1, title := body.title.getD "",
              done := body.done.getD false },
       l ++ [{ id := (l.length : Int) + 1, title := body.title.getD "",
               done := body.done.getD false }]) ∧
    postHandler (some body) db =
      (201,
       { rows := db.rows ++ [{ id := db.nextId, title := body.title.getD "",
                               done := body.done.getD false }],
         nextId := db.nextId + 1 },
       some { id := db.nextId, title := body.title.getD "",
              done := body.done.getD false }) := by
  exact ⟨rfl, rfl⟩

/-- C7: the backend update primitive returns the given id/title/done
verbatim whether or not a matching row exists, and against a missing id it
changes nothing — in particular it inserts no record. -/
theorem updateTodoReturnsVerbatim (id : Int) (u : Todo) (db : Db) :
    (Database.UpdateTodo id u db).2 = { id := id, title := u.title, done := u.done } ∧
    (Database.UpdateTodo id u db).1.rows.length = db.rows.length ∧
    (Database.GetTodoByID id db = none → Database.UpdateTodo id u db = (db, { id := id, title := u.title, done := u.done })) := by
  refine ⟨rfl, by simp [Database.UpdateTodo], ?_⟩
  intro h
  have h' : ∀ r ∈ db.rows, r.id ≠ id := by
    intro r hr
    have := List.find?_eq_none.mp h r hr
    simpa using this
  have hmap : db.rows.map (fun r =>
      if r.id = id then { r with title := u.title, done := u.done } else r) = db.rows :=
    map_fixed_of_forall_eq _ db.rows (fun r hr => if_neg (h' r hr))
  simp [Database.UpdateTodo, hmap]

/-- C7 witness at id 999, which the seeded store does not contain. -/
theorem updateTodoReturnsVerbatimWitness :
    Database.UpdateTodo 999 { id := 7, title := "W", done := true } seedDb =
      (seedDb, { id := 999, title := "W", done := true }) :=
  (updateTodoReturnsVerbatim 999 { id := 7, title := "W", done := true } seedDb).2.2
    (by decide)

/-- C8: the backend delete primitive is idempotent — deleting twice equals
deleting once — and deleting an id with no matching row is a successful
no-op. -/
theorem backendDeleteIdempotent (id : Int) (db : Db) :
    Database.DeleteTodo id (Database.DeleteTodo id db) = Database.DeleteTodo id db ∧
    (Database.GetTodoByID id db = none → Database.DeleteTodo id db = db) := by
  constructor
  · simp [Database.DeleteTodo, List.filter_filter]
  · intro h
    have h' : ∀ r ∈ db.rows, r.id ≠ id := by
      intro r hr
      have := List.find?_eq_none.mp h r hr
      simpa using this
    have hf : db.rows.filter (fun r => r.id ≠ id) = db.rows :=
      List.filter_eq_self.mpr (fun r hr => by simpa using h' r hr)
    unfold Database.DeleteTodo
    rw [hf]

/-- C8 witness at id 999, missing from the seeded store. -/
theorem backendDeleteIdempotentWitness :
    Database.DeleteTodo 999 seedDb = seedDb :=
  (backendDeleteIdempotent 999 seedDb).2 (by decide)

/-- C9: in the SQL-backed PUT handler the body is bound before the
existence lookup, so a malformed body yields 400 with no backend call at
all (no lookup, no write) and the store untouched — never 404, whatever
the id token. -/
theorem putMalformedBodyRejectedBeforeLookup (idTok : String) (db : Db) :
    putHandler idTok none db = (400, db, []) := by
  cases h : atoi? idTok <;> simp [putHandler, h]

/-- C10: the in-memory delete removes exactly the first element matching
the id and nothing else: the result is the `eraseP` of the slice, hence a
sublist of it — every remaining item keeps its id, title and done, in the
original relative order. -/
theorem deletePreservesRemaining (idStr : String) (l : List Todo) :
    (deleteTodo idStr l).2 = l.eraseP (fun t => t.id == toInt idStr) ∧
    ((deleteTodo idStr l).2).Sublist l := by
  refine ⟨deleteTodo_snd_eq_eraseP idStr l, ?_⟩
  rw [deleteTodo_snd_eq_eraseP idStr l]
  exact List.eraseP_sublist l

/-- C2: in the SQL-backed PUT handler the write is gated by the lookup:
a `DbCall.update` happens only when `GetTodoByID` succeeded first (the
trace is lookup-then-update and nothing else), and against an absent id
the handler answers 404 with the lookup as the only backend call. -/
theorem putExistenceCheckedBeforeWrite (idTok : String) (body : Option TodoPayload)
    (db : Db) (id : Int) (hid : atoi? idTok = some id) (hbody : body.isSome) :
    (Database.GetTodoByID id db = none →
      putHandler idTok body db = (404, db, [DbCall.lookup id])) ∧
    ((Database.GetTodoByID id db).isSome →
      (putHandler idTok body db).1 = 200 ∧
      (putHandler idTok body db).2.2 = [DbCall.lookup id, DbCall.update id]) ∧
    (DbCall.update id ∈ (putHandler idTok body db).2.2 →
      (Database.GetTodoByID id db).isSome) := by
  obtain ⟨p, hp⟩ := Option.isSome_iff_exists.mp hbody
  subst hp
  cases h : Database.GetTodoByID id db with
  | none =>
      refine ⟨fun _ => ?_, fun hs => ?_, fun hm => ?_⟩
      · simp [putHandler, hid, h]
      · simp at hs
      · simp [putHandler, hid, h] at hm
  | some v =>
      refine ⟨fun hn => ?_, fun _ => ?_, fun _ => ?_⟩
      · simp at hn
      · simp [putHandler, hid, h]
      · rfl

/-- C2 witness: PUT /todos/999 with a well-formed body against the seeded
store answers 404 with the lookup as the only backend call. -/
theorem putExistenceCheckedBeforeWriteWitness :
    putHandler "999" (some { id := none, title := some "W", done := some true }) seedDb
      = (404, seedDb, [DbCall.lookup 999]) :=
  (putExistenceCheckedBeforeWrite "999"
      (some { id := none, title := some "W", done := some true })
      seedDb 999 (by decide) (by decide)).1 (by decide)

/-- C3: update and delete of an id absent from the collection answer 404
and leave the collection exactly unchanged, in the SQL-backed handlers and
in the in-memory handlers alike. -/
theorem missingIdNotFoundFrame (idStr : String) (k : Int) (body : TodoPayload)
    (db : Db) (l : List Todo)
    (hk : atoi? idStr = some k)
    (hdb : Database.GetTodoByID k db = none)
    (hl : ∀ t ∈ l, t.id ≠ k) :
    putHandler idStr (some body) db = (404, db, [DbCall.lookup k]) ∧
    deleteHandler idStr db = (404, db, [DbCall.lookup k]) ∧
    putTodo idStr (some body) l = (404, none, l) ∧
    deleteTodo idStr l = (404, l) := by
  have htoInt : toInt idStr = k := by simp [toInt, hk]
  refine ⟨by simp [putHandler, hk, hdb], by simp [deleteHandler, hk, hdb], ?_, ?_⟩
  · simp [putTodo, htoInt, putCore_eq_none (k := k) (u := bindTodo body) hl]
  · simp [deleteTodo, htoInt, deleteCore_eq_none (k := k) hl]

/-- C3 witness at id 999 against the seeded store and seeded collection. -/
theorem missingIdNotFoundFrameWitness :
    putHandler "999" (some { id := none, title := some "X", done := some true }) seedDb
      = (404, seedDb, [DbCall.lookup 999]) ∧
    deleteHandler "999" seedDb = (404, seedDb, [DbCall.lookup 999]) ∧
    putTodo "999" (some { id := none, title := some "X", done := some true }) seedTodos
      = (404, none, seedTodos) ∧
    deleteTodo "999" seedTodos = (404, seedTodos) :=
  missingIdNotFoundFrame "999" 999 { id := none, title := some "X", done := some true }
    seedDb seedTodos (by decide) (by decide) (by decide)

/-- C5: a successful update of the item carrying id k rewrites only that
item's title and done; its id stays k and every other item is untouched —
in the in-memory handler (first match rewritten in place) and in the
SQL-backed handler (UPDATE WHERE id = k) alike. -/
theorem updateFrameEffect (idStr : String) (k : Int) (body : TodoPayload)
    (pre post : List Todo) (t : Todo) (n : Int)
    (hk : atoi? idStr = some k) (ht : t.id = k)
    (hpre : ∀ x ∈ pre, x.id ≠ k) (hpost : ∀ x ∈ post, x.id ≠ k) :
    putTodo idStr (some body) (pre ++ t :: post) =
      (200,
       some { t with title := body.title.getD "", done := body.done.getD false },
       pre ++ { t with title := body.title.getD "", done := body.done.getD false } :: post) ∧
    putHandler idStr (some body) { rows := pre ++ t :: post, nextId := n } =
      (200,
       { rows :=
           pre ++ { t with title := body.title.getD "", done := body.done.getD false } :: post,
         nextId := n },
       [DbCall.lookup k, DbCall.update k]) := by
  have htoInt : toInt idStr = k := by simp [toInt, hk]
  constructor
  · have hpc := putCore_append (k := k) (u := bindTodo body) post ht pre hpre
    simp only [bindTodo] at hpc
    simp [putTodo, htoInt, bindTodo, hpc]
  · have hex : ∃ v, Database.GetTodoByID k { rows := pre ++ t :: post, nextId := n } = some v := by
      apply Option.isSome_iff_exists.mp
      apply List.find?_isSome.mpr
      exact ⟨t, by simp, by simp [ht]⟩
    obtain ⟨v, hv⟩ := hex
    have hmapPre : pre.map (fun r =>
        if r.id = k then { r with title := body.title.getD "", done := body.done.getD false }
        else r) = pre :=
      map_fixed_of_forall_eq _ pre (fun x hx => if_neg (hpre x hx))
    have hmapPost : post.map (fun r =>
        if r.id = k then { r with title := body.title.getD "", done := body.done.getD false }
        else r) = post :=
      map_fixed_of_forall_eq _ post (fun x hx => if_neg (hpost x hx))
    simp [putHandler, hk, hv, Database.UpdateTodo, bindTodo, List.map_append,
      if_pos ht, hmapPre, hmapPost, ht]

/-- C5 witness: updating seeded item 2 rewrites only item 2. -/
theorem updateFrameEffectWitness :
    putTodo "2" (some { id := some 9, title := some "Updated", done := some true })
        ([{ id := 1, title := "Learn Go", done := false }] ++
          { id := 2, title := "Set up CI/CD", done := false } :: []) =
      (200,
       some { id := 2, title := "Updated", done := true },
       [{ id := 1, title := "Learn Go", done := false }] ++
         { id := 2, title := "Updated", done := true } :: []) :=
  (updateFrameEffect "2" 2 { id := some 9, title := some "Updated", done := some true }
    [{ id := 1, title := "Learn Go", done := false }] []
    { id := 2, title := "Set up CI/CD", done := false } 3
    (by decide) (by decide) (by decide) (by decide)).1

theorem applyMemReq_canonical {l : List Todo} (r : MemReq)
    (h : l.map Todo.id = natIdsUpTo l.length) :
    (applyMemReq l r).map Todo.id = natIdsUpTo (applyMemReq l r).length := by
  cases r with
  | post body =>
      simp only [applyMemReq, postTodo, List.map_append, List.length_append, List.map_cons,
        List.map_nil, List.length_cons, List.length_nil, h]
      rw [show l.length + (0 + 1) = l.length + 1 by omega, natIdsUpTo_succ]
  | put idStr body =>
      simp only [applyMemReq, putTodo]
      cases hp : putCore (toInt idStr) (bindTodo body) l with
      | none => simpa using h
      | some rr =>
          have hm : rr.1.map Todo.id = l.map Todo.id := putCore_map_id hp
          have hlen : rr.1.length = l.length := by
            have hc := congrArg List.length hm
            simpa using hc
          simp only []
          rw [hm, hlen]
          exact h

theorem foldl_canonical (reqs : List MemReq) :
    ∀ l : List Todo, l.map Todo.id = natIdsUpTo l.length →
      (reqs.foldl applyMemReq l).map Todo.id = natIdsUpTo (reqs.foldl applyMemReq l).length := by
  induction reqs with
  | nil => exact fun l h => h
  | cons r rest ih =>
      intro l h
      rw [List.foldl_cons]
      exact ih _ (applyMemReq_canonical r h)

/-- C1 counterexample: in the in-memory variant, delete id 1 from the
seeded collection (a successful 200 delete), then create (a successful 201
create): the new item gets id `len + 1 = 2`, which the surviving item
already carries, so two stored items share id 2. -/
theorem deleteThenCreateCollides :
    (deleteTodo "1" seedTodos).1 = 200 ∧
    (postTodo (some { id := none, title := some "New", done := some false })
        (deleteTodo "1" seedTodos).2).1 = 201 ∧
    ¬ (((postTodo (some { id := none, title := some "New", done := some false })
        (deleteTodo "1" seedTodos).2).2.2.map Todo.id).Nodup) := by
  exact ⟨by decide, by decide, by decide⟩

/-- C1 amended: in the in-memory variant, every sequence of creates and
updates from the seeded state keeps the stored ids pairwise distinct (the
id column stays exactly 1..n); only a delete followed by a create can
duplicate a live id. -/
theorem createUpdateSequencesKeepIdsUnique (reqs : List MemReq) :
    ((runMemReqs reqs).map Todo.id).Nodup := by
  have h := foldl_canonical reqs seedTodos (by decide)
  unfold runMemReqs
  rw [h]
  exact natIdsUpTo_nodup _

/-- C4 counterexample: the in-memory dispatcher does not reject the
non-numeric id token "abc": `toInt` silently coerces it to 0, the scan
runs and finds nothing, and the response is 404 NotFound — not the 400
InvalidInput the claim requires. -/
theorem nonNumericIdInMemoryGives404 :
    atoi? "abc" = none ∧
    deleteTodo "abc" seedTodos = (404, seedTodos) ∧
    (deleteTodo "abc" seedTodos).1 ≠ 400 ∧
    (putTodo "abc" (some { id := none, title := some "X", done := some true })
        seedTodos).1 = 404 := by
  exact ⟨by decide, by decide, by decide, by decide⟩

/-- C4 amended: the SQL-backed dispatcher rejects a non-numeric id with
400 before any backend call and leaves the store unchanged; the in-memory
dispatcher instead coerces the token to id 0 and runs the operation,
which — whenever no item carries id 0, as in every seeded-reachable
state — answers 404 with the collection unchanged. -/
theorem nonNumericIdDispatch (idTok : String) (body : TodoPayload) (db : Db) (l : List Todo)
    (h : atoi? idTok = none) (h0 : ∀ t ∈ l, t.id ≠ 0) :
    putHandler idTok (some body) db = (400, db, []) ∧
    deleteHandler idTok db = (400, db, []) ∧
    putTodo idTok (some body) l = (404, none, l) ∧
    deleteTodo idTok l = (404, l) := by
  have htoInt : toInt idTok = 0 := by simp [toInt, h]
  refine ⟨by simp [putHandler, h], by simp [deleteHandler, h], ?_, ?_⟩
  · simp [putTodo, htoInt, putCore_eq_none (k := 0) (u := bindTodo body) h0]
  · simp [deleteTodo, htoInt, deleteCore_eq_none (k := 0) h0]

/-- C4 witness: the token "abc" against the seeded store and seeded
collection. -/
theorem nonNumericIdDispatchWitness :
    putHandler "abc" (some { id := none, title := some "X", done := some true }) seedDb
      = (400, seedDb, []) ∧
    deleteHandler "abc" seedDb = (400, seedDb, []) ∧
    putTodo "abc" (some { id := none, title := some "X", done := some true }) seedTodos
      = (404, none, seedTodos) ∧
    deleteTodo "abc" seedTodos = (404, seedTodos) :=
  nonNumericIdDispatch "abc" { id := none, title := some "X", done := some true }
    seedDb seedTodos (by decide) (by decide)
